import Mathlib

/-!
Verification of the Netease-to-Spotify playlist migration core
(`netease_to_spotify.py`) against its natural-language specification.

The Python source is shallowly embedded below:
* pure expressions become Lean functions over `Int` / `Nat` / `String`;
* the two remote catalog services are modelled as explicit state
  (`SpState` for the destination service) plus oracle functions
  (`Env` for cover fetching/uploading, a `detail` function for the
  source catalog batch endpoint, a `search` function for catalog search);
* Python exceptions become `Except` / `Option` results;
* Python truthiness of strings (`if artist:`) is modelled as `≠ ""`;
* `while` loops become fuel-indexed structural recursions whose wrapper
  supplies fuel that provably exceeds the number of iterations, so that
  every definition evaluates by kernel reduction.
-/

/-! ### Timestamp sanity window and calendar-year conversion (source lines 21-27, 246-249) -/

/-- Source constant `UNIX_START = 1000` (milliseconds). -/
def UNIX_START : Int := 1000

/-- Source constant `MS_PER_S = 1000`. -/
def MS_PER_S : Int := 1000

/-- Source constant `NEXT_YEAR = datetime(datetime.now().year + 1, 1, 1).timestamp() * MS_PER_S`:
the first instant of the next calendar year, in milliseconds since the Unix epoch.
For a 2026 run in a UTC environment this is 2027-01-01T00:00:00Z in ms. -/
def NEXT_YEAR : Int := 1798761600000

/-- Civil (proleptic Gregorian) year of a day count relative to 1970-01-01,
the standard `civil_from_days` computation; models the calendar arithmetic done by
Python `datetime.date.fromtimestamp(..).year` in a UTC environment. -/
def civilYearOfDays (z0 : Int) : Int :=
  let z := z0 + 719468
  let era := (if 0 ≤ z then z else z - 146096) / 146097
  let doe := z - era * 146097
  let yoe := (doe - doe / 1460 + doe / 36524 - doe / 146096) / 365
  let y := yoe + era * 400
  let doy := doe - (365 * yoe + yoe / 4 - yoe / 100)
  let mp := (5 * doy + 2) / 153
  let m := if mp < 10 then mp + 3 else mp - 9
  if m ≤ 2 then y + 1 else y

/-- Models `date.fromtimestamp(ms / MS_PER_S).year` (source line 248) in a UTC
environment: milliseconds to seconds, seconds to days, days to civil year. -/
def yearFromMs (ms : Int) : Int := civilYearOfDays (ms / MS_PER_S / 86400)

/-- A raw Netease track record as consumed by the extractor: `song["name"]`,
`song["ar"]` (artist names, first one used), and the optional `song["publishTime"]`
(absent key modelled as `none`). -/
structure NSong where
  name : String
  ar : List String
  publishTime : Option Int
deriving DecidableEq

/-- The year component of the extractor (source line 248):
`date.fromtimestamp(song["publishTime"] / MS_PER_S).year
 if "publishTime" in song and UNIX_START <= song["publishTime"] <= NEXT_YEAR else -1`. -/
def songYear (song : NSong) : Int :=
  match song.publishTime with
  | some t => if UNIX_START ≤ t ∧ t ≤ NEXT_YEAR then yearFromMs t else -1
  | none => -1

/-- Modelled from the spec: year resolution with the *half-open* window
`[1000, startOfNextCalendarYearInMs)` claimed by the specification. -/
def specYearHalfOpen (song : NSong) : Int :=
  match song.publishTime with
  | some t => if UNIX_START ≤ t ∧ t < NEXT_YEAR then yearFromMs t else -1
  | none => -1

/-- Modelled from the spec as amended: same as `specYearHalfOpen` but with the
*closed* window `[1000, startOfNextCalendarYearInMs]` that the code implements. -/
def specYearClosed (song : NSong) : Int :=
  match song.publishTime with
  | some t => if UNIX_START ≤ t ∧ t ≤ NEXT_YEAR then yearFromMs t else -1
  | none => -1

/-! ### Parenthesis stripping (source line 140): `re.sub(r'\(.*\)', '', name)`

`re.sub` scans left to right; at a `(` the greedy `.*` (which does not match a
newline) extends to the *last* `)` reachable without crossing a newline; the
whole match is deleted and scanning resumes after it.  A `(` with no reachable
`)` does not match and is kept. -/

/-- Newline character (the one character the regex `.` does not match). -/
def NLchar : Char := Char.ofNat 10

/-- Index (relative to the list) of the last `)` reachable from the current
position without crossing a newline; `acc` is the best index found so far. -/
def lastCloseAux : List Char → Nat → Option Nat → Option Nat
  | [], _, acc => acc
  | c :: cs, i, acc =>
    if c = NLchar then acc
    else lastCloseAux cs (i + 1) (if c = ')' then some i else acc)

/-- Fuel-indexed body of `subParens`; the fuel always dominates the length of the
list, so the `0` case with a nonempty list is never reached from `subParens`. -/
def subParensGo : Nat → List Char → List Char
  | _, [] => []
  | 0, l => l
  | fuel + 1, c :: rest =>
    if c = '(' then
      match lastCloseAux rest 0 none with
      | some j => subParensGo fuel (rest.drop (j + 1))
      | none => c :: subParensGo fuel rest
    else c :: subParensGo fuel rest

/-- The substitution `re.sub(r'\(.*\)', '', s)` on the character list of `s`. -/
def subParens (l : List Char) : List Char := subParensGo l.length l

/-- `trimmed_name = re.sub(r'\(.*\)', '', name)` (source line 140). -/
def trimName (s : String) : String := String.mk (subParens s.data)

/-- Fuel-indexed body of `stripParensSpec`. -/
def stripParensSpecGo : Nat → List Char → List Char
  | _, [] => []
  | 0, l => l
  | fuel + 1, c :: rest =>
    if c = '(' then
      match rest.findIdx? (fun d => d = ')') with
      | some j => stripParensSpecGo fuel (rest.drop (j + 1))
      | none => c :: stripParensSpecGo fuel rest
    else c :: stripParensSpecGo fuel rest

/-- Modelled from the spec: "removes exactly the parenthesized substrings of the
name and nothing else" — each parenthesized group (a `(` up to the *nearest*
following `)`) is deleted and all text outside the groups is retained. -/
def stripParensSpec (l : List Char) : List Char := stripParensSpecGo l.length l

example : subParens "Love Story (TV)".data = "Love Story ".data := by decide

example : subParens "a (x) b (y) c".data = "a  c".data := by decide

example : stripParensSpec "a (x) b (y) c".data = "a  b  c".data := by decide

example : songYear ⟨"A", ["x"], some 1577836800000⟩ = 2020 := by decide

example : songYear ⟨"A", ["x"], some 1798761600000⟩ = 2027 := by decide

/-! ### Search query construction (source lines 286-301, `search_for_track`) -/

/-- The query built by `search_for_track(year, name, artist)` (source lines 293-299):
an empty query, a `year:{year-4}-{year+4} ` clause when `year != -1`, then the
name, then ` ` and the artist when `artist` is truthy (nonempty). -/
def search_for_track_query (year : Int) (name : String) (artist : String) : String :=
  let query : String := ""
  let query :=
    if year ≠ -1 then query ++ ("year:" ++ toString (year - 4) ++ "-" ++ toString (year + 4) ++ " ")
    else query
  let query := query ++ name
  if artist ≠ "" then query ++ (" " ++ artist) else query

/-- A track descriptor `(name, artist, year)` as produced by the extractor. -/
def Track : Type := String × String × Int

instance : DecidableEq Track := by unfold Track; infer_instance

/-- The destination-catalog query issued for one extracted track by
`_migrate_single_playlist` (source lines 140-142): the name is
parenthesis-stripped first, then `search_for_track(year, trimmed_name, artist)`
builds the query. -/
def queryOf (t : Track) : String := search_for_track_query t.2.2 (trimName t.1) t.2.1

example : queryOf ("A", "artA", 2020) = "year:2016-2024 A artA" := by decide

example : queryOf ("B", "artB", -1) = "B artB" := by decide

/-! ### Catalog batch fetcher (source lines 239-245)

```
left, right = 0, 0
while right < len(track_ids):
    right = left + min(1000, len(track_ids) - right)
    songs.extend(apis.track.GetTrackDetail(track_ids[left:right])["songs"])
    left = right
```
`left = right` holds at the head of every iteration, so the loop state is a
single cursor; `track_ids[left:right]` is `(track_ids.drop left).take (right - left)`. -/

/-- Fuel-indexed body of the batching loop; one fuel unit per iteration. -/
def fetchBatchesGo {α : Type} : Nat → List α → Nat → List (List α)
  | 0, _, _ => []
  | fuel + 1, track_ids, left =>
    if left < track_ids.length then
      let right := left + min 1000 (track_ids.length - left)
      ((track_ids.drop left).take (right - left)) :: fetchBatchesGo fuel track_ids right
    else []

/-- The list of id batches the loop sends to `GetTrackDetail`, in request order. -/
def fetchBatches {α : Type} (track_ids : List α) : List (List α) :=
  fetchBatchesGo (track_ids.length + 1) track_ids 0

/-- `songs`: the concatenation, in request order, of the records returned for
each batch, where `detail` models `apis.track.GetTrackDetail(ids)["songs"]`. -/
def batchGetTrackDetail {α β : Type} (detail : List α → List β) (track_ids : List α) : List β :=
  ((fetchBatches track_ids).map detail).flatten

example : fetchBatches [1, 2, 3] = [[1, 2, 3]] := by decide

/-! ### Track descriptor extraction (source lines 221-254) -/

/-- `get_netease_playlist_tracks_name_and_artist`: optional truncation to
`limit`, batched fetch of raw records, extraction of
`(song["name"], song["ar"][0]["name"], year)` per record, and reversal
(`result[::-1]`).  Indexing `song["ar"][0]` raises on an empty artist list,
which makes the whole call fail: that is modelled by `Option`. -/
def get_netease_playlist_tracks_name_and_artist
    (detail : List Nat → List NSong) (trackIds : List Nat) (limit : Nat) :
    Option (List Track) :=
  let track_ids := if limit > 0 then trackIds.take limit else trackIds
  let songs := batchGetTrackDetail detail track_ids
  (songs.mapM (fun (song : NSong) =>
    song.ar.head?.map (fun a => (song.name, a, songYear song)))).map List.reverse

/-! ### Destination service model -/

/-- One item of a destination playlist, as seen through
`playlist_items(...)['items']` with fields `items.track.id`:
`none` is a null `track` field, `some none` a track with a null `id`,
and `some (some tid)` a track with id `tid`. -/
def SpItem : Type := Option (Option String)

instance : DecidableEq SpItem := by unfold SpItem; infer_instance

/-- A destination playlist: id, display name, and its item list (head = position 0). -/
structure SpPlaylist where
  pid : String
  pname : String
  items : List SpItem
deriving DecidableEq

/-- The destination service state: the authenticated user's playlists, newest
first (the order `user_playlists` returns them in), plus a fresh-id counter. -/
structure SpState where
  playlists : List SpPlaylist
  nextId : Nat
deriving DecidableEq

/-- External collaborators of the playlist/cover flow:
`fetchUrl` models `get_base64_from_url` (already `None` on any request error or
when the encoded image exceeds 256 KiB), `localImage` the base64 of the bundled
default cover read by `get_base64_from_image`, and `uploadCover` the
`playlist_upload_cover_image` call, which may raise. -/
structure Env where
  fetchUrl : String → Option String
  localImage : String
  uploadCover : String → String → Except String Unit

/-- The id the destination service assigns to the next created playlist. -/
def freshId (st : SpState) : String := "sp-" ++ toString st.nextId

/-- `self.spotify.user_playlist_create(user, name)["id"]`: creates an empty
playlist, which then shows up first in the user's playlist listing. -/
def user_playlist_create (st : SpState) (playlist_name : String) : SpState × String :=
  (⟨⟨freshId st, playlist_name, []⟩ :: st.playlists, st.nextId + 1⟩, freshId st)

/-- The one page of `(id, name)` pairs the code inspects:
`self.spotify.user_playlists(user)` returns a single page of at most 50
playlists and the code reads only its `"items"` (source line 165). -/
def firstPage (st : SpState) : List (String × String) :=
  (st.playlists.map (fun p => (p.pid, p.pname))).take 50

/-- The base64 cover image `create_playlist` uploads (source lines 203-209):
the URL-fetched image when `coverImgUrl` is truthy and the fetch result is
truthy, else the bundled local default. -/
def coverImage (env : Env) (coverImgUrl : Option String) : String :=
  match coverImgUrl with
  | some url =>
    if url = "" then env.localImage
    else
      let b := (env.fetchUrl url).getD ""
      if b = "" then env.localImage else b
  | none => env.localImage

/-- `create_playlist` (source lines 191-219): create the playlist, then upload a
cover image; a cover-upload failure is logged and *re-raised* (lines 212-214),
so it propagates, but the creation is not undone. -/
def create_playlist (env : Env) (st : SpState) (playlist_name : String)
    (coverImgUrl : Option String) : SpState × Except String String :=
  let created := user_playlist_create st playlist_name
  match env.uploadCover created.2 (coverImage env coverImgUrl) with
  | Except.ok _ => (created.1, Except.ok created.2)
  | Except.error e => (created.1, Except.error e)

/-- `get_or_create_playlist` (source lines 154-189): scan the single returned
page of the user's playlists for the first exact name match (`break` on hit);
`if not playlist_id:` (None or empty) create; otherwise best-effort refresh the
cover — the refresh attempt's outcome is discarded (lines 177-183) — and return
the found id. -/
def get_or_create_playlist (env : Env) (st : SpState) (playlist_name : String)
    (coverImgUrl : Option String) : SpState × Except String String :=
  let playlist_id :=
    match (firstPage st).find? (fun pr => pr.2 == playlist_name) with
    | some pr => pr.1
    | none => ""
  if playlist_id = "" then create_playlist env st playlist_name coverImgUrl
  else
    let _refresh : Except String Unit :=
      match coverImgUrl with
      | some url =>
        if url = "" then Except.ok ()
        else
          match env.fetchUrl url with
          | some b => if b = "" then Except.ok () else env.uploadCover playlist_id b
          | none => Except.ok ()
      | none => Except.ok ()
    (st, Except.ok playlist_id)

/-! ### Existing-track snapshot (source lines 303-333, `get_playlist_tracks`)

```
track_ids = set(); offset = 0; limit = 100
while True:
    results = playlist_items(playlist_id, offset, limit, fields='items.track.id,total')
    if not results['items']: break
    for item in results['items']:
        if item['track'] and item['track']['id']: track_ids.add(item['track']['id'])
    offset += limit
    if offset >= results['total']: break
return track_ids
```
`playlist_items` pages the playlist's item list: page = `(items.drop offset).take 100`,
`results['total']` = total number of items.  Python `if item['track'] and
item['track']['id']` is truthiness: a null track, a null id *and an empty-string
id* are all skipped. -/

/-- The inner `for` loop of `get_playlist_tracks`: add each truthy id of a page. -/
def addPageIds (acc : Finset String) (page : List SpItem) : Finset String :=
  page.foldl (fun a it =>
    match it with
    | some (some tid) => if tid = "" then a else insert tid a
    | _ => a) acc

/-- Fuel-indexed body of the `get_playlist_tracks` pagination loop. -/
def getPlaylistTracksGo : Nat → List SpItem → Nat → Finset String → Finset String
  | 0, _, _, acc => acc
  | fuel + 1, items, offset, acc =>
    let page := (items.drop offset).take 100
    if page.isEmpty then acc
    else
      let acc2 := addPageIds acc page
      if items.length ≤ offset + 100 then acc2
      else getPlaylistTracksGo fuel items (offset + 100) acc2

/-- `get_playlist_tracks` on the playlist's item list: the set of truthy track
ids of all items. -/
def get_playlist_tracks (items : List SpItem) : Finset String :=
  getPlaylistTracksGo (items.length + 1) items 0 ∅

/-! ### Per-playlist reconciliation loop (source lines 138-150)

```
for name, artist, year in tracks:
    trimmed_name = re.sub(r'\(.*\)', '', name)
    try:
        track_id = self.search_for_track(year, trimmed_name, artist)
        if track_id not in existing_tracks:
            self.spotify.playlist_add_items(spotify_playlist_id, [track_id], 0)
        else: ...skip...
    except Exception: ...skip...
```
`search` models `self.spotify.search(query, limit=1)["tracks"]["items"][0]["id"]`:
`none` when the search returns zero results (the `IndexError` is caught by the
`except`, skipping the track).  `playlist_add_items(.., [track_id], 0)` prepends
one item to the playlist. -/

/-- One iteration of the reconciliation loop over the playlist's item list. -/
def insertStep (search : String → Option String) (existing_tracks : Finset String)
    (items : List SpItem) (t : Track) : List SpItem :=
  match search (queryOf t) with
  | none => items
  | some track_id =>
    if track_id ∉ existing_tracks then some (some track_id) :: items else items

/-- The whole reconciliation loop, returning the final item list of the
destination playlist. -/
def insertTracks (search : String → Option String) (existing_tracks : Finset String)
    (items0 : List SpItem) (tracks : List Track) : List SpItem :=
  tracks.foldl (insertStep search existing_tracks) items0

/-- Lines 131-148 of `_migrate_single_playlist` for an already-resolved
playlist: snapshot the existing track-id set, then run the insertion loop
against that (never-updated) snapshot. -/
def reconcilePlaylist (search : String → Option String) (items : List SpItem)
    (tracks : List Track) : List SpItem :=
  insertTracks search (get_playlist_tracks items) items tracks

/-! ### Full single-playlist migration (source lines 111-152) -/

/-- The configured Netease playlist info used by `_migrate_single_playlist`:
`playlist_info["playlist"]["name"]`, `...["coverImgUrl"]`, `...["trackIds"]`. -/
structure NPlaylist where
  name : String
  coverImgUrl : Option String
  trackIds : List Nat

/-- The item list of the playlist with id `pid` (empty if no such playlist). -/
def itemsOf (st : SpState) (pid : String) : List SpItem :=
  match st.playlists.find? (fun p => p.pid == pid) with
  | some p => p.items
  | none => []

/-- Replace the item list of the playlist with id `pid`. -/
def setItems (st : SpState) (pid : String) (its : List SpItem) : SpState :=
  ⟨st.playlists.map (fun p => if p.pid == pid then ⟨p.pid, p.pname, its⟩ else p), st.nextId⟩

/-- `_migrate_single_playlist` (source lines 111-152): resolve/create the
destination playlist (with the configured name prefix), snapshot its existing
tracks, extract the source tracks, and run the insertion loop; any error at the
playlist level (`get_or_create_playlist` re-raises, extraction raises) is caught
by the outer `except`, leaving the destination state as it then stands. -/
def migrate_single (env : Env) (search : String → Option String)
    (detail : List Nat → List NSong) (st : SpState) (np : NPlaylist)
    (limit : Nat) (pfx : String) : SpState :=
  let spotify_playlist_name := pfx ++ np.name
  let res := get_or_create_playlist env st spotify_playlist_name np.coverImgUrl
  match res.2 with
  | Except.error _ => res.1
  | Except.ok spotify_playlist_id =>
    match get_netease_playlist_tracks_name_and_artist detail np.trackIds limit with
    | none => res.1
    | some tracks =>
      setItems res.1 spotify_playlist_id
        (insertTracks search (get_playlist_tracks (itemsOf res.1 spotify_playlist_id))
          (itemsOf res.1 spotify_playlist_id) tracks)

example : get_playlist_tracks [some (some "a"), none, some none, some (some "a")]
    = {"a"} := by decide

example :
    insertTracks (fun q => if q = "B artB" then some "idB" else none) ∅ []
      [("B", "artB", -1)] = [some (some "idB")] := by decide

/-! ### Helper lemmas: strings -/

theorem string_empty_append (s : String) : "" ++ s = s := by
  apply String.ext; rw [String.data_append]; rfl

theorem string_append_assoc (a b c : String) : a ++ b ++ c = a ++ (b ++ c) := by
  apply String.ext; simp [String.data_append, List.append_assoc]

/-! ### C1: year extraction window -/

/-- C1 (counterexample): at the very first millisecond of the next calendar
year — the boundary `startOfNextCalendarYearInMs` — the code still converts the
timestamp to a calendar year (the interval check on source line 248 is
`UNIX_START <= publishTime <= NEXT_YEAR`, inclusive on the right), while the
claimed half-open window `[1000, startOfNextCalendarYearInMs)` would resolve the
year to the unknown sentinel `-1`. -/
theorem songYear_upper_bound_counterexample :
    songYear ⟨"Edge", ["a"], some 1798761600000⟩ = 2027 ∧
    specYearHalfOpen ⟨"Edge", ["a"], some 1798761600000⟩ = -1 :=
  ⟨by decide, by decide⟩

/-- C1 (amended): for every raw source track record, the extractor's year is the
calendar year of the publish timestamp exactly when that timestamp lies in the
*closed* interval `[1000, startOfNextCalendarYearInMs]`, and the unknown
sentinel `-1` for every timestamp outside that range or absent. -/
theorem songYear_eq_specYearClosed (song : NSong) : songYear song = specYearClosed song := rfl

/-! ### C5: search query shape -/

/-- C5: the query `search_for_track` issues for a (parenthesis-stripped) name:
the `year:(year-4)-(year+4)` window clause followed by a space exactly when the
year is known (not the `-1` sentinel), then the stripped name, then a space and
the artist exactly when an artist is present (nonempty). -/
theorem search_query_shape (year : Int) (name artist : String) :
    search_for_track_query year (trimName name) artist =
      (if year ≠ -1 then "year:" ++ toString (year - 4) ++ "-" ++ toString (year + 4) ++ " "
       else "")
        ++ trimName name
        ++ (if artist ≠ "" then " " ++ artist else "") := by
  unfold search_for_track_query
  by_cases hy : year = -1 <;> by_cases ha : artist = "" <;>
    simp [hy, ha, string_empty_append, string_append_assoc]

/-! ### Helper lemmas: the greedy parenthesis substitution -/

theorem subParensGo_fuel :
    ∀ (f1 f2 : Nat) (l : List Char), l.length ≤ f1 → l.length ≤ f2 →
      subParensGo f1 l = subParensGo f2 l := by
  intro f1
  induction f1 with
  | zero =>
    intro f2 l h1 _
    have hl : l = [] := List.eq_nil_of_length_eq_zero (Nat.le_zero.mp h1)
    subst hl; cases f2 <;> rfl
  | succ f ih =>
    intro f2 l h1 h2
    cases l with
    | nil => cases f2 <;> rfl
    | cons c rest =>
      cases f2 with
      | zero => simp at h2
      | succ g =>
        have hrf : rest.length ≤ f := by simpa using h1
        have hrg : rest.length ≤ g := by simpa using h2
        simp only [subParensGo]
        by_cases hc : c = '('
        · simp only [hc, if_pos]
          cases hlc : lastCloseAux rest 0 none with
          | some j =>
            exact ih g (rest.drop (j + 1))
              (le_trans (by rw [List.length_drop]; omega) hrf)
              (le_trans (by rw [List.length_drop]; omega) hrg)
          | none => rw [ih g rest hrf hrg]
        · simp only [if_neg hc]
          rw [ih g rest hrf hrg]

theorem subParens_cons (c : Char) (rest : List Char) :
    subParens (c :: rest) =
      if c = '(' then
        match lastCloseAux rest 0 none with
        | some j => subParens (rest.drop (j + 1))
        | none => c :: subParens rest
      else c :: subParens rest := by
  show subParensGo (rest.length + 1) (c :: rest) = _
  simp only [subParensGo]
  by_cases hc : c = '('
  · simp only [hc, if_pos]
    cases hlc : lastCloseAux rest 0 none with
    | some j =>
      exact subParensGo_fuel rest.length (rest.drop (j + 1)).length (rest.drop (j + 1))
        (by rw [List.length_drop]; omega) le_rfl
    | none => rfl
  · simp only [if_neg hc]
    rfl

/-- Scanning a list with no `)` never improves the accumulator. -/
theorem lastCloseAux_no_close :
    ∀ (l : List Char) (i : Nat) (acc : Option Nat), (∀ c ∈ l, c ≠ ')') →
      lastCloseAux l i acc = acc := by
  intro l
  induction l with
  | nil => intro i acc _; rfl
  | cons c cs ih =>
    intro i acc h
    simp only [lastCloseAux]
    by_cases hnl : c = NLchar
    · simp [hnl]
    · rw [if_neg hnl, if_neg (h c (List.mem_cons_self c cs)), ih (i + 1) acc]
      intro d hd; exact h d (List.mem_cons_of_mem c hd)

/-- Scanning `body ++ ')' :: post` where `body` has no `)` and no newline and
`post` has no `)`: the last reachable `)` is the explicit one. -/
theorem lastCloseAux_single_close :
    ∀ (body post : List Char) (i : Nat) (acc : Option Nat),
      (∀ c ∈ body, c ≠ ')') → (∀ c ∈ body, c ≠ NLchar) → (∀ c ∈ post, c ≠ ')') →
      lastCloseAux (body ++ ')' :: post) i acc = some (i + body.length) := by
  intro body
  induction body with
  | nil =>
    intro post i acc _ _ hpost
    have hne : (')' : Char) ≠ NLchar := by decide
    have hstep : lastCloseAux (')' :: post) i acc = lastCloseAux post (i + 1) (some i) := by
      simp [lastCloseAux, hne]
    rw [List.nil_append, hstep, lastCloseAux_no_close post (i + 1) (some i) hpost]
    simp
  | cons c cs ih =>
    intro post i acc hb1 hb2 hpost
    have hc1 : c ≠ ')' := hb1 c (List.mem_cons_self c cs)
    have hc2 : c ≠ NLchar := hb2 c (List.mem_cons_self c cs)
    have hstep : lastCloseAux (c :: (cs ++ ')' :: post)) i acc
        = lastCloseAux (cs ++ ')' :: post) (i + 1) acc := by
      simp [lastCloseAux, hc1, hc2]
    rw [List.cons_append, hstep,
      ih post (i + 1) acc (fun d hd => hb1 d (List.mem_cons_of_mem c hd))
        (fun d hd => hb2 d (List.mem_cons_of_mem c hd)) hpost]
    simp only [List.length_cons]
    congr 1
    omega

/-- A list with no `)` passes through the substitution unchanged. -/
theorem subParens_no_close (l : List Char) (h : ∀ c ∈ l, c ≠ ')') : subParens l = l := by
  induction l with
  | nil => rfl
  | cons c cs ih =>
    rw [subParens_cons]
    have hcs : ∀ d ∈ cs, d ≠ ')' := fun d hd => h d (List.mem_cons_of_mem c hd)
    by_cases hc : c = '('
    · rw [if_pos hc, lastCloseAux_no_close cs 0 none hcs, ih hcs]
    · rw [if_neg hc, ih hcs]

/-- The apostrophe character, and the spec's example name
`"Love Story (Taylor's Version)"` built with it. -/
def apos : String := String.singleton (Char.ofNat 39)

/-- The spec's example input name. -/
def loveStory : String := "Love Story (Taylor" ++ apos ++ "s Version)"

/-- C2 (amended): the query construction removes, at each `(`, the greedy span
up to the last `)` on the same line; consequently, when the name contains a
single parenthesized group (no other `)` anywhere, no `)` or newline inside the
group, no `(` before it), exactly that group is removed and all other text is
retained unchanged. -/
theorem subParens_single_group (pre body post : List Char)
    (hpre : ∀ c ∈ pre, c ≠ '(')
    (hbody1 : ∀ c ∈ body, c ≠ ')') (hbody2 : ∀ c ∈ body, c ≠ NLchar)
    (hpost : ∀ c ∈ post, c ≠ ')') :
    subParens (pre ++ '(' :: (body ++ ')' :: post)) = pre ++ post := by
  induction pre with
  | nil =>
    rw [List.nil_append, List.nil_append, subParens_cons, if_pos rfl,
      lastCloseAux_single_close body post 0 none hbody1 hbody2 hpost]
    show subParens ((body ++ ')' :: post).drop (0 + body.length + 1)) = post
    have hsplit : body ++ ')' :: post = (body ++ [')']) ++ post := by
      simp [List.append_assoc]
    have hlen : (body ++ [')']).length = 0 + body.length + 1 := by simp
    rw [hsplit, ← hlen, List.drop_left, subParens_no_close post hpost]
  | cons p ps ih =>
    have hp : p ≠ '(' := hpre p (List.mem_cons_self p ps)
    rw [List.cons_append, subParens_cons, if_neg hp,
      ih (fun d hd => hpre d (List.mem_cons_of_mem p hd))]
    rfl

/-- C2 (counterexample): on `"a (x) b (y) c"` the greedy regex
`re.sub(r'\(.*\)', '', name)` deletes everything from the first `(` to the last
`)`, including the ` b ` that lies *outside* both parenthesized groups, whereas
removing exactly the parenthesized substrings would keep it. -/
theorem subParens_two_groups_counterexample :
    subParens "a (x) b (y) c".data = "a  c".data ∧
    stripParensSpec "a (x) b (y) c".data = "a  b  c".data ∧
    "a  c".data ≠ "a  b  c".data :=
  ⟨by decide, by decide, by decide⟩

/-- C2 (witness): the spec's own example: `"Love Story (Taylor's Version)"`
contributes `"Love Story "`. -/
theorem subParens_love_story :
    subParens loveStory.data = "Love Story ".data := by
  have e : loveStory.data
      = "Love Story ".data ++ '(' :: (("Taylor" ++ apos ++ "s Version").data ++ ')' :: []) := by
    decide
  rw [e, subParens_single_group "Love Story ".data ("Taylor" ++ apos ++ "s Version").data []
    (by decide) (by decide) (by decide) (by decide)]
  simp

/-! ### Helper lemmas: the batching loop -/

theorem fetchBatchesGo_flatten {α : Type} :
    ∀ (fuel : Nat) (ids : List α) (left : Nat), ids.length ≤ left + 1000 * fuel →
      (fetchBatchesGo fuel ids left).flatten = ids.drop left := by
  intro fuel
  induction fuel with
  | zero =>
    intro ids left h
    simp only [fetchBatchesGo, List.flatten_nil]
    exact (List.drop_eq_nil_of_le (by omega)).symm
  | succ f ih =>
    intro ids left h
    simp only [fetchBatchesGo]
    by_cases hl : left < ids.length
    · rw [if_pos hl, List.flatten_cons, ih ids (left + min 1000 (ids.length - left)) (by omega),
        Nat.add_sub_cancel_left, ← List.drop_drop, List.take_append_drop]
    · rw [if_neg hl, List.flatten_nil]
      exact (List.drop_eq_nil_of_le (by omega)).symm

theorem fetchBatchesGo_length {α : Type} :
    ∀ (fuel : Nat) (ids : List α) (left : Nat), ids.length ≤ left + 1000 * fuel →
      (fetchBatchesGo fuel ids left).length = (ids.length - left + 999) / 1000 := by
  intro fuel
  induction fuel with
  | zero =>
    intro ids left h
    simp only [fetchBatchesGo, List.length_nil]
    omega
  | succ f ih =>
    intro ids left h
    simp only [fetchBatchesGo]
    by_cases hl : left < ids.length
    · rw [if_pos hl, List.length_cons, ih ids (left + min 1000 (ids.length - left)) (by omega)]
      omega
    · rw [if_neg hl, List.length_nil]
      omega

theorem fetchBatchesGo_size {α : Type} :
    ∀ (fuel : Nat) (ids : List α) (left i : Nat),
      ((fetchBatchesGo fuel ids left).getD i []).length ≤ 1000 := by
  intro fuel
  induction fuel with
  | zero => intro ids left i; simp [fetchBatchesGo]
  | succ f ih =>
    intro ids left i
    simp only [fetchBatchesGo]
    by_cases hl : left < ids.length
    · rw [if_pos hl]
      cases i with
      | zero =>
        rw [List.getD_cons_zero]
        exact le_trans (List.length_take_le _ _) (by omega)
      | succ n => rw [List.getD_cons_succ]; exact ih ids _ n
    · rw [if_neg hl]; simp

/-- Proof-side structural view of the batching loop: repeatedly split off the
first (at most) 1000 elements. -/
def chunks {α : Type} [DecidableEq α] (l : List α) : List (List α) :=
  if hl : l = [] then [] else l.take 1000 :: chunks (l.drop 1000)
termination_by l.length
decreasing_by
  rw [List.length_drop]
  have : 0 < l.length := List.length_pos.mpr hl
  omega

theorem fetchBatchesGo_eq_chunks {α : Type} [DecidableEq α] :
    ∀ (fuel : Nat) (ids : List α) (left : Nat), ids.length ≤ left + 1000 * fuel →
      fetchBatchesGo fuel ids left = chunks (ids.drop left) := by
  intro fuel
  induction fuel with
  | zero =>
    intro ids left h
    rw [List.drop_eq_nil_of_le (by omega), chunks]
    rfl
  | succ f ih =>
    intro ids left h
    simp only [fetchBatchesGo]
    by_cases hl : left < ids.length
    · rw [if_pos hl, ih ids (left + min 1000 (ids.length - left)) (by omega)]
      have hne : ids.drop left ≠ [] := by
        apply List.length_pos.mp
        rw [List.length_drop]
        omega
      conv_rhs => rw [chunks]
      rw [dif_neg hne, Nat.add_sub_cancel_left]
      have hhead : (ids.drop left).take (min 1000 (ids.length - left))
          = (ids.drop left).take 1000 := by
        apply List.take_eq_take.mpr
        rw [List.length_drop]
        omega
      have hdrop : ids.drop (left + min 1000 (ids.length - left))
          = (ids.drop left).drop 1000 := by
        rw [List.drop_drop]
        rcases le_total 1000 (ids.length - left) with hc | hc
        · rw [Nat.min_eq_left hc]
        · rw [Nat.min_eq_right hc, List.drop_eq_nil_of_le (by omega),
            List.drop_eq_nil_of_le (by omega)]
      rw [hhead, hdrop]
    · rw [if_neg hl, List.drop_eq_nil_of_le (by omega), chunks]
      rfl

theorem chunks_map_length_2500 {α : Type} [DecidableEq α] (l : List α) (h : l.length = 2500) :
    (chunks l).map List.length = [1000, 1000, 500] := by
  have h0 : l ≠ [] := by intro hn; rw [hn] at h; simp at h
  rw [chunks, dif_neg h0]
  have h1 : (l.drop 1000).length = 1500 := by rw [List.length_drop, h]
  have h1n : l.drop 1000 ≠ [] := by
    intro hn; rw [hn] at h1; simp at h1
  rw [chunks, dif_neg h1n]
  have h2 : ((l.drop 1000).drop 1000).length = 500 := by rw [List.length_drop, h1]
  have h2n : (l.drop 1000).drop 1000 ≠ [] := by
    intro hn; rw [hn] at h2; simp at h2
  rw [chunks, dif_neg h2n]
  have h3 : (((l.drop 1000).drop 1000).drop 1000) = [] :=
    List.drop_eq_nil_of_le (by omega)
  rw [h3, chunks, dif_pos rfl]
  simp only [List.map_cons, List.map_nil, List.length_take, h, h1, h2]
  rfl

/-! ### C4: the batch fetcher contract -/

/-- C4: for every ordered sequence of source track identifiers, the batching
loop issues exactly `ceil(N/1000)` requests (`(N + 999) / 1000` in `Nat`
division), every batch carries at most 1000 identifiers, and — under the source
service's contract that `GetTrackDetail` returns one record per identifier in
input order, modelled by `List.map f` — the concatenation of the responses in
request order is exactly one record per identifier in the original order; in
particular 2500 identifiers produce 3 batches of sizes 1000, 1000 and 500. -/
theorem batch_fetch_contract {α β : Type} (f : α → β) (ids : List α) :
    (fetchBatches ids).length = (ids.length + 999) / 1000 ∧
    (∀ i : Nat, ((fetchBatches ids).getD i []).length ≤ 1000) ∧
    batchGetTrackDetail (List.map f) ids = ids.map f ∧
    (fetchBatches (List.range 2500)).map List.length = [1000, 1000, 500] := by
  have hflat : ∀ (l : List α), (fetchBatches l).flatten = l := by
    intro l
    unfold fetchBatches
    rw [fetchBatchesGo_flatten (l.length + 1) l 0 (by omega), List.drop_zero]
  refine ⟨?_, ?_, ?_, ?_⟩
  · unfold fetchBatches
    rw [fetchBatchesGo_length (ids.length + 1) ids 0 (by omega)]
    omega
  · intro i; exact fetchBatchesGo_size _ ids 0 i
  · unfold batchGetTrackDetail
    rw [← List.map_flatten, hflat]
  · have h0 : (List.range 2500).length = 2500 := List.length_range 2500
    unfold fetchBatches
    rw [fetchBatchesGo_eq_chunks _ _ 0 (by omega), List.drop_zero]
    exact chunks_map_length_2500 _ h0

/-! ### Helper lemmas: the existing-track snapshot -/

/-- The truthy track ids of an item list, as a finite set. -/
def pageIds (l : List SpItem) : Finset String :=
  ((l.filterMap Option.join).filter (fun s => s != "")).toFinset

theorem pageIds_nil : pageIds [] = ∅ := rfl

theorem pageIds_append (a b : List SpItem) : pageIds (a ++ b) = pageIds a ∪ pageIds b := by
  unfold pageIds
  rw [List.filterMap_append, List.filter_append, List.toFinset_append]

theorem pageIds_cons_of_join_none (it : SpItem) (l : List SpItem)
    (h : Option.join it = none) : pageIds (it :: l) = pageIds l := by
  unfold pageIds
  rw [List.filterMap_cons_none h]

theorem pageIds_cons_some (tid : String) (l : List SpItem) :
    pageIds (some (some tid) :: l)
      = if tid = "" then pageIds l else insert tid (pageIds l) := by
  unfold pageIds
  rw [List.filterMap_cons_some (show Option.join (some (some tid)) = some tid from rfl)]
  by_cases ht : tid = ""
  · rw [if_pos ht,
      @List.filter_cons_of_neg String (fun s => s != "") tid (l.filterMap Option.join)
        (by simp [ht])]
  · rw [if_neg ht,
      @List.filter_cons_of_pos String (fun s => s != "") tid (l.filterMap Option.join)
        (bne_iff_ne.mpr ht),
      List.toFinset_cons]

theorem addPageIds_eq : ∀ (page : List SpItem) (acc : Finset String),
    addPageIds acc page = acc ∪ pageIds page := by
  intro page
  induction page with
  | nil => intro acc; simp [addPageIds, pageIds_nil]
  | cons it l ih =>
    intro acc
    match it with
    | none =>
      have hstep : addPageIds acc (none :: l) = addPageIds acc l := rfl
      rw [hstep, ih, pageIds_cons_of_join_none none l rfl]
    | some none =>
      have hstep : addPageIds acc (some none :: l) = addPageIds acc l := rfl
      rw [hstep, ih, pageIds_cons_of_join_none (some none) l rfl]
    | some (some tid) =>
      have hstep : addPageIds acc (some (some tid) :: l)
          = addPageIds (if tid = "" then acc else insert tid acc) l := rfl
      rw [hstep, ih, pageIds_cons_some]
      by_cases ht : tid = ""
      · rw [if_pos ht, if_pos ht]
      · rw [if_neg ht, if_neg ht, Finset.insert_union, Finset.union_insert]

theorem getPlaylistTracksGo_eq :
    ∀ (fuel : Nat) (items : List SpItem) (offset : Nat) (acc : Finset String),
      items.length ≤ offset + 100 * fuel →
      getPlaylistTracksGo fuel items offset acc = acc ∪ pageIds (items.drop offset) := by
  intro fuel
  induction fuel with
  | zero =>
    intro items offset acc h
    rw [List.drop_eq_nil_of_le (by omega), pageIds_nil, Finset.union_empty]
    rfl
  | succ f ih =>
    intro items offset acc h
    simp only [getPlaylistTracksGo]
    by_cases hp : ((items.drop offset).take 100).isEmpty
    · rw [if_pos hp]
      have : (items.drop offset).take 100 = [] := List.isEmpty_iff.mp hp
      have hdrop : items.drop offset = [] := by
        rcases List.take_eq_nil_iff.mp this with h100 | hnil
        · omega
        · exact hnil
      rw [hdrop, pageIds_nil, Finset.union_empty]
    · rw [if_neg hp]
      by_cases hlen : items.length ≤ offset + 100
      · rw [if_pos hlen, addPageIds_eq]
        have : (items.drop offset).take 100 = items.drop offset :=
          List.take_of_length_le (by rw [List.length_drop]; omega)
        rw [this]
      · rw [if_neg hlen, ih items (offset + 100) _ (by omega), addPageIds_eq]
        have hsplit : items.drop offset
            = (items.drop offset).take 100 ++ items.drop (offset + 100) := by
          conv_lhs => rw [← List.take_append_drop 100 (items.drop offset)]
          rw [List.drop_drop]
        conv_rhs => rw [hsplit]
        rw [pageIds_append, Finset.union_assoc]

/-- `get_playlist_tracks` is exactly the truthy-id set of the item list. -/
theorem get_playlist_tracks_eq (items : List SpItem) :
    get_playlist_tracks items = pageIds items := by
  unfold get_playlist_tracks
  rw [getPlaylistTracksGo_eq (items.length + 1) items 0 ∅ (by omega), List.drop_zero,
    Finset.empty_union]

theorem mem_get_playlist_tracks {tid : String} {items : List SpItem} :
    tid ∈ get_playlist_tracks items ↔ some (some tid) ∈ items ∧ tid ≠ "" := by
  rw [get_playlist_tracks_eq]
  unfold pageIds
  rw [List.mem_toFinset, List.mem_filter, bne_iff_ne]
  constructor
  · rintro ⟨hmem, hne⟩
    rcases List.mem_filterMap.mp hmem with ⟨a, ha, hja⟩
    exact ⟨Option.join_eq_some.mp hja ▸ ha, hne⟩
  · rintro ⟨hmem, hne⟩
    exact ⟨List.mem_filterMap.mpr ⟨some (some tid), hmem, rfl⟩, hne⟩

/-! ### C9: the existing-track snapshot excludes falsy ids and is a set -/

/-- C9 (counterexample): an item whose track id is the *empty string* — not
null — is nevertheless excluded, because the code tests Python truthiness
(`if item['track'] and item['track']['id']:`), not only nullness. -/
theorem get_playlist_tracks_empty_id_counterexample :
    get_playlist_tracks [some (some "")] = (∅ : Finset String) ∧
    (∅ : Finset String) ≠ {""} := ⟨by decide, by decide⟩

/-- C9 (amended): `get_playlist_tracks` returns the set of track identifiers of
the playlist's items, silently excluding every item whose track field is null,
whose track id is null, *or whose track id is the empty string*; the result is
a set, so duplicate occurrences collapse to one membership entry. -/
theorem get_playlist_tracks_truthy_id_set (items : List SpItem) :
    get_playlist_tracks items
      = ((items.filterMap Option.join).filter (fun s => s != "")).toFinset :=
  get_playlist_tracks_eq items

/-! ### Helper lemmas: the insertion loop -/

/-- The item (if any) the reconciliation loop prepends for one track. -/
def newItem (search : String → Option String) (existing_tracks : Finset String)
    (t : Track) : Option SpItem :=
  match search (queryOf t) with
  | none => none
  | some track_id =>
    if track_id ∉ existing_tracks then some (some (some track_id)) else none

/-- Shape of the insertion loop's result: the prepended items (in reverse
processing order) in front of the untouched initial item list. -/
theorem insertTracks_eq (search : String → Option String) (existing : Finset String) :
    ∀ (tracks : List Track) (items0 : List SpItem),
      insertTracks search existing items0 tracks
        = (tracks.filterMap (newItem search existing)).reverse ++ items0 := by
  intro tracks
  induction tracks with
  | nil => intro items0; simp [insertTracks]
  | cons t ts ih =>
    intro items0
    have hfold : insertTracks search existing items0 (t :: ts)
        = insertTracks search existing (insertStep search existing items0 t) ts := rfl
    rw [hfold, ih, List.filterMap_cons]
    cases hs : search (queryOf t) with
    | none =>
      have h1 : insertStep search existing items0 t = items0 := by
        unfold insertStep; rw [hs]
      have h2 : newItem search existing t = none := by
        unfold newItem; rw [hs]
      rw [h1, h2]
    | some track_id =>
      by_cases hm : track_id ∈ existing
      · have h1 : insertStep search existing items0 t = items0 := by
          unfold insertStep; rw [hs]; simp [hm]
        have h2 : newItem search existing t = none := by
          unfold newItem; rw [hs]; simp [hm]
        rw [h1, h2]
      · have h1 : insertStep search existing items0 t
            = some (some track_id) :: items0 := by
          unfold insertStep; rw [hs]; simp [hm]
        have h2 : newItem search existing t = some (some (some track_id)) := by
          unfold newItem; rw [hs]; simp [hm]
        rw [h1, h2, List.reverse_cons, List.append_assoc]
        rfl

/-! ### C6: idempotence of the reconciliation pass -/

/-- C6: running the per-playlist reconciliation (snapshot the existing-track
set, then match and insert) a second time over the same track descriptors with
the same deterministic search function inserts nothing: the item list is
unchanged, because every track that matched in the first run is in the
snapshot taken at the start of the second run.  The hypothesis reflects the
destination service's contract that search results are real (nonempty) track
identifiers. -/
theorem reconcile_idempotent (search : String → Option String) (tracks : List Track)
    (items0 : List SpItem) (hne : ∀ q : String, search q ≠ some "") :
    reconcilePlaylist search (reconcilePlaylist search items0 tracks) tracks
      = reconcilePlaylist search items0 tracks := by
  unfold reconcilePlaylist
  set ex1 := get_playlist_tracks items0 with hex1
  set items1 := insertTracks search ex1 items0 tracks with hitems1
  rw [insertTracks_eq]
  suffices h : tracks.filterMap (newItem search (get_playlist_tracks items1)) = [] by
    rw [h]; rfl
  rw [List.filterMap_eq_nil_iff]
  intro t ht
  unfold newItem
  cases hs : search (queryOf t) with
  | none => rfl
  | some track_id =>
    have htid : track_id ≠ "" := by
      intro hcon
      exact hne (queryOf t) (hcon ▸ hs)
    have hmem1 : some (some track_id) ∈ items1 := by
      by_cases hx : track_id ∈ ex1
      · have := mem_get_playlist_tracks.mp hx
        rw [hitems1, insertTracks_eq]
        exact List.mem_append_right _ this.1
      · have hnew : newItem search ex1 t = some (some (some track_id)) := by
          unfold newItem; rw [hs]; simp [hx]
        rw [hitems1, insertTracks_eq]
        exact List.mem_append_left _
          (List.mem_reverse.mpr (List.mem_filterMap.mpr ⟨t, ht, hnew⟩))
    have hmem : track_id ∈ get_playlist_tracks items1 :=
      mem_get_playlist_tracks.mpr ⟨hmem1, htid⟩
    simp [hmem]

/-! ### C7: ordering — reversal at extraction plus head-insertion -/

theorem filterMap_eq_map_of_forall {α β : Type} (g : α → Option β) (h : α → β) :
    ∀ l : List α, (∀ a ∈ l, g a = some (h a)) → l.filterMap g = l.map h := by
  intro l
  induction l with
  | nil => intro _; rfl
  | cons a as ih =>
    intro hall
    rw [List.filterMap_cons_some (hall a (List.mem_cons_self a as)), List.map_cons,
      ih (fun b hb => hall b (List.mem_cons_of_mem a hb))]

/-- C7 (amended): with the destination playlist initially empty and every
descriptor matched to a (distinct) identifier, processing the *reversed*
extracted sequence with head-insertion yields a final destination ordering
equal to the original source catalog order — one matched item per source
track, in source catalog order.  (In the concrete [A, B] scenario this final
order is [A, B], not [B, A]: B is inserted first, then A at position 0.) -/
theorem reversal_head_insertion_order (search : String → Option String)
    (tracks : List Track) (f : Track → String)
    (hmatch : ∀ t ∈ tracks, search (queryOf t) = some (f t))
    (hdist : tracks.Pairwise (fun a b => f a ≠ f b)) :
    insertTracks search (get_playlist_tracks []) [] tracks.reverse
      = tracks.map (fun t => some (some (f t))) := by
  have hempty : get_playlist_tracks ([] : List SpItem) = ∅ := rfl
  rw [insertTracks_eq, hempty, List.append_nil]
  have hmap : tracks.reverse.filterMap (newItem search ∅)
      = tracks.reverse.map (fun t => some (some (f t))) := by
    apply filterMap_eq_map_of_forall
    intro t ht
    have ht' : t ∈ tracks := List.mem_reverse.mp ht
    unfold newItem
    rw [hmatch t ht']
    simp
  rw [hmap, List.map_reverse, List.reverse_reverse]

/-! ### Concrete scenario: source [A(2020), B(unknown year)], destination absent -/

/-- Environment whose cover upload always succeeds. -/
def envOk : Env := ⟨fun _ => none, "img", fun _ _ => Except.ok ()⟩

/-- Environment whose cover upload always fails. -/
def envFail : Env := ⟨fun _ => none, "img", fun _ _ => Except.error "upload failed"⟩

/-- Track A, published 2020-01-01T00:00:00Z (1577836800000 ms). -/
def songA : NSong := ⟨"A", ["artA"], some 1577836800000⟩

/-- Track B, no publish timestamp. -/
def songB : NSong := ⟨"B", ["artB"], none⟩

/-- The source catalog detail oracle for the scenario: id 1 is A, id 2 is B. -/
def detailAB : List Nat → List NSong :=
  fun ids => ids.map (fun i => if i = 1 then songA else songB)

/-- A deterministic destination search for the scenario. -/
def searchAB : String → Option String := fun q =>
  if q = "B artB" then some "idB"
  else if q = "year:2016-2024 A artA" then some "idA"
  else none

/-- The extracted descriptors of the scenario, in source catalog order. -/
def tracksAB : List Track := [("A", "artA", 2020), ("B", "artB", -1)]

/-- The identifier each scenario descriptor matches. -/
def fAB : Track → String := fun t => if t.1 = "A" then "idA" else "idB"

/-- The scenario's source playlist: tracks [A, B] in catalog order, no cover. -/
def npAB : NPlaylist := ⟨"PL", none, [1, 2]⟩

/-- C7 (counterexample): migrating the source playlist [A(2020), B(unknown)]
into an absent destination playlist creates the playlist and ends with final
order [A, B] — B is inserted first, then A at position 0 — not the claimed
[B, A]. -/
theorem migrate_scenario_final_order :
    itemsOf (migrate_single envOk searchAB detailAB ⟨[], 0⟩ npAB 0 "") "sp-0"
      = [some (some "idA"), some (some "idB")] ∧
    ([some (some "idA"), some (some "idB")] : List SpItem)
      ≠ [some (some "idB"), some (some "idA")] :=
  ⟨by decide, by decide⟩

/-- C7 (witness): the general ordering theorem applied to the concrete
scenario. -/
theorem reversal_head_insertion_order_witness :
    insertTracks searchAB (get_playlist_tracks []) [] tracksAB.reverse
      = tracksAB.map (fun t => some (some (fAB t))) :=
  reversal_head_insertion_order searchAB tracksAB fAB (by decide) (by decide)

/-- C6 (witness): the idempotence theorem applied to the concrete scenario. -/
theorem reconcile_idempotent_witness :
    reconcilePlaylist searchAB (reconcilePlaylist searchAB [] tracksAB) tracksAB
      = reconcilePlaylist searchAB [] tracksAB := by
  apply reconcile_idempotent
  intro q
  unfold searchAB
  split_ifs <;> simp

/-! ### C3: playlist resolution scans only the first page -/

/-- C3 (amended): `get_or_create_playlist` examines only the single page of
(at most 50) playlists returned by the listing call: it returns the identifier
of the first playlist *in that page* whose name exactly equals the target
(provided that identifier is truthy), and it creates a new playlist whenever no
playlist in that page matches — even if a playlist of that exact name exists
beyond the first page. -/
theorem get_or_create_scans_first_page (env : Env) (st : SpState) (name : String)
    (cover : Option String) :
    (∀ pr : String × String,
        (firstPage st).find? (fun q => q.2 == name) = some pr → pr.1 ≠ "" →
        get_or_create_playlist env st name cover = (st, Except.ok pr.1)) ∧
    ((firstPage st).find? (fun q => q.2 == name) = none →
        get_or_create_playlist env st name cover = create_playlist env st name cover) := by
  constructor
  · intro pr hfind hne
    unfold get_or_create_playlist
    rw [hfind]
    simp [hne]
  · intro hfind
    unfold get_or_create_playlist
    rw [hfind]
    rfl

/-- C3 (counterexample): with 50 playlists named `"other"` on the first page
and the playlist `"id50"` named `"target"` in position 51, resolving `"target"`
does not return `"id50"`: the code never paginates past the first page and
creates a fresh playlist (`"sp-0"`) even though a playlist of that exact name
exists. -/
theorem get_or_create_misses_second_page :
    (∃ p ∈ (SpState.mk
        (List.replicate 50 (SpPlaylist.mk "px" "other" []) ++ [SpPlaylist.mk "id50" "target" []])
        0).playlists, p.pname = "target") ∧
    (get_or_create_playlist envOk
        (SpState.mk
          (List.replicate 50 (SpPlaylist.mk "px" "other" []) ++ [SpPlaylist.mk "id50" "target" []])
          0) "target" none).2 = Except.ok "sp-0" ∧
    "sp-0" ≠ "id50" :=
  ⟨by decide, by rfl, by decide⟩

/-- C3 (witness): the first-page theorem applied to a user with one playlist
whose name matches. -/
theorem get_or_create_scans_first_page_witness :
    get_or_create_playlist envOk (SpState.mk [SpPlaylist.mk "p1" "My" []] 0) "My" none
      = (SpState.mk [SpPlaylist.mk "p1" "My" []] 0, Except.ok "p1") :=
  (get_or_create_scans_first_page envOk (SpState.mk [SpPlaylist.mk "p1" "My" []] 0)
    "My" none).1 ("p1", "My") (by decide) (by decide)

/-! ### C8: asymmetric cover-upload failure handling -/

/-- C8: a cover-upload failure for a *newly created* playlist propagates out of
`create_playlist` (the inner `except` re-raises), whereas a cover-upload
failure while refreshing an *existing* playlist is caught, and
`get_or_create_playlist` still returns the existing playlist's identifier with
the state unchanged. -/
theorem create_playlist_def (env : Env) (st : SpState) (name : String)
    (cover : Option String) :
    create_playlist env st name cover =
      match env.uploadCover (freshId st) (coverImage env cover) with
      | Except.ok _ => ((user_playlist_create st name).1, Except.ok (freshId st))
      | Except.error e => ((user_playlist_create st name).1, Except.error e) := rfl

theorem cover_upload_failure_asymmetry (env : Env) (st : SpState) (name : String)
    (cover : Option String) (e : String) (pr : String × String)
    (hfail : env.uploadCover (freshId st) (coverImage env cover) = Except.error e)
    (hfind : (firstPage st).find? (fun q => q.2 == name) = some pr)
    (hpid : pr.1 ≠ "") :
    (create_playlist env st name cover).2 = Except.error e ∧
    get_or_create_playlist env st name cover = (st, Except.ok pr.1) := by
  constructor
  · rw [create_playlist_def, hfail]
  · unfold get_or_create_playlist
    rw [hfind]
    simp [hpid]

/-- C8 (witness): with an always-failing uploader, creation fails but
resolution of an existing playlist still succeeds. -/
theorem cover_upload_failure_asymmetry_witness :
    (create_playlist envFail (SpState.mk [SpPlaylist.mk "p1" "My" []] 0) "My" none).2
      = Except.error "upload failed" ∧
    get_or_create_playlist envFail (SpState.mk [SpPlaylist.mk "p1" "My" []] 0) "My" none
      = (SpState.mk [SpPlaylist.mk "p1" "My" []] 0, Except.ok "p1") :=
  cover_upload_failure_asymmetry envFail (SpState.mk [SpPlaylist.mk "p1" "My" []] 0)
    "My" none "upload failed" ("p1", "My") (by rfl) (by decide) (by decide)

/-! ### C10: failed cover upload leaves the created playlist behind -/

theorem freshId_ne_empty (st : SpState) : freshId st ≠ "" := by
  intro h
  have hd := congrArg String.data h
  rw [freshId] at hd
  rw [String.data_append] at hd
  have h3 : "sp-".data = ['s', 'p', '-'] := rfl
  rw [h3] at hd
  simp at hd

/-- C10: when the cover upload of a newly created playlist fails,
`create_playlist` raises only *after* the playlist was created at the
destination, the creation is not rolled back — the playlist (with its name and
empty item list, but without the intended cover) persists in the resulting
state — and a subsequent `get_or_create_playlist` run resolves it by exact name
and returns its identifier instead of creating another playlist. -/
theorem create_playlist_no_rollback (env env2 : Env) (st : SpState) (name : String)
    (cover cover2 : Option String) (e : String)
    (hfail : env.uploadCover (freshId st) (coverImage env cover) = Except.error e) :
    (create_playlist env st name cover).2 = Except.error e ∧
    (create_playlist env st name cover).1
      = SpState.mk (SpPlaylist.mk (freshId st) name [] :: st.playlists) (st.nextId + 1) ∧
    get_or_create_playlist env2 (create_playlist env st name cover).1 name cover2
      = ((create_playlist env st name cover).1, Except.ok (freshId st)) := by
  have hst1 : (create_playlist env st name cover).1
      = SpState.mk (SpPlaylist.mk (freshId st) name [] :: st.playlists) (st.nextId + 1) := by
    rw [create_playlist_def, hfail]
    rfl
  have hres : (create_playlist env st name cover).2 = Except.error e := by
    rw [create_playlist_def, hfail]
  refine ⟨hres, hst1, ?_⟩
  rw [hst1]
  have hfind : (firstPage (SpState.mk (SpPlaylist.mk (freshId st) name [] :: st.playlists)
      (st.nextId + 1))).find? (fun q => q.2 == name) = some (freshId st, name) := by
    unfold firstPage
    rw [List.map_cons, List.take_succ_cons]
    exact List.find?_cons_of_pos _ (beq_self_eq_true name)
  unfold get_or_create_playlist
  rw [hfind]
  simp [freshId_ne_empty st]

/-- C10 (witness): concrete failing creation against an empty account. -/
theorem create_playlist_no_rollback_witness :
    (create_playlist envFail (SpState.mk [] 0) "My" none).2
        = Except.error "upload failed" ∧
    (create_playlist envFail (SpState.mk [] 0) "My" none).1
        = SpState.mk [SpPlaylist.mk (freshId (SpState.mk [] 0)) "My" []] 1 ∧
    get_or_create_playlist envOk (create_playlist envFail (SpState.mk [] 0) "My" none).1
        "My" none
      = ((create_playlist envFail (SpState.mk [] 0) "My" none).1,
          Except.ok (freshId (SpState.mk [] 0))) :=
  create_playlist_no_rollback envFail envOk (SpState.mk [] 0) "My" none none
    "upload failed" (by rfl)
